import Mathlib

/-!
# Verification of `diff-enum` (`#[diff_enum::common_fields]` attribute macro)

Shallow embedding of `src/lib.rs` of the `diff-enum` crate.  The crate
exposes one proc-macro attribute, `common_fields`, which

* parses its attribute argument as a brace-delimited named-field list
  (`parse_shared_fields`),
* parses the annotated item as a `syn::DeriveInput`,
* generates one accessor method per shared field (`generate_accessors`),
* appends the shared fields to every variant of the annotated enum
  (`expand_shared_fields`),
* emits the rewritten enum followed by the accessor `impl` block.

The external collaborator `syn` (a Rust parsing library) is abstracted:
the outcome of each `syn::parse` call is an input of the embedding
(`Except String _`, mirroring `syn::Result`).  Rust `panic!` is modelled
as `Except.error` carrying the formatted panic message; a panic aborts
the macro with no output tokens, which `Except.error` captures.
-/

set_option autoImplicit false

namespace DiffEnum

/-- A Rust identifier, kept opaque. -/
abbrev Ident := String

/-- A Rust type expression (`syn::Type`), kept opaque. -/
abbrev TypeExpr := String

/-- An outer attribute or doc comment (`syn::Attribute`), kept opaque.
In `syn`, doc comments are represented as `#[doc = "..."]` attributes,
so this type also covers doc comments on fields and items. -/
abbrev Attr := String

/-- `syn::Field` restricted to named fields: attributes (including doc
comments), the field name and its type.  Visibility of enum fields is
always inherited, so it is not modelled. -/
structure Field where
  attrs : List Attr
  ident : Ident
  ty : TypeExpr
  deriving DecidableEq, Repr

/-- `syn::FieldsNamed`: the braced list `{ a: A, b: B }`. -/
structure FieldsNamed where
  named : List Field
  deriving DecidableEq, Repr

/-- `syn::Fields`: the payload shape of an enum variant. -/
inductive Fields where
  | named (fields : FieldsNamed)
  | unnamed (tys : List TypeExpr)
  | unit
  deriving DecidableEq, Repr

/-- `syn::Variant`: attributes, name, payload, optional discriminant. -/
structure Variant where
  attrs : List Attr
  ident : Ident
  fields : Fields
  discriminant : Option String
  deriving DecidableEq, Repr

/-- `syn::DataEnum` (the brace token and variant punctuation dropped). -/
structure DataEnum where
  variants : List Variant
  deriving DecidableEq, Repr

/-- `syn::Data`: the payload of a `DeriveInput`.  Struct and union
payloads are opaque: the macro never looks inside them. -/
inductive Data where
  | enumData (e : DataEnum)
  | structData (body : String)
  | unionData (body : String)
  deriving DecidableEq, Repr

/-- `syn::DeriveInput`: the parsed annotated item.  `attrs` carries all
outer attributes, including `#[derive(...)]` requests; `vis` and
`generics` are opaque. -/
structure DeriveInput where
  attrs : List Attr
  vis : String
  ident : Ident
  generics : String
  data : Data
  deriving DecidableEq, Repr

/-- One match arm of a generated accessor, i.e. the tokens
`#enum_name::#ident{ref #field_name, ..} => #field_name,` from
`generate_accessors`.  The pattern binds exactly `pattern_field` by
`ref` and discards the rest of the payload with `..`; the arm body is
the single identifier `body`. -/
structure MatchArm where
  pattern_enum : Ident
  pattern_variant : Ident
  pattern_field : Ident
  body : Ident
  deriving DecidableEq, Repr

/-- One generated accessor function, i.e. the tokens
`#[inline] #[allow(dead_code)] pub fn #field_name (&self) -> &#ty
\x7b match self \x7b #(#arms)* \x7d \x7d` from `generate_accessors`.
`attrs`, `vis`, `self_param` and the leading `&` of `ret_ty` transcribe
the fixed template tokens; `name`, `ret_ty` and `arms` the interpolated
ones. -/
structure AccessorFn where
  attrs : List String
  vis : String
  name : Ident
  self_param : String
  ret_ty : String
  arms : List MatchArm
  deriving DecidableEq, Repr

/-- The generated `impl #enum_name \x7b #(#accessors)* \x7d` block. -/
structure ImplBlock where
  enumName : Ident
  fns : List AccessorFn
  deriving DecidableEq, Repr

/-- Panic message of `common_fields` when the shared-field list is
empty (src/lib.rs:215). -/
def msg_empty : String :=
  "No shared field is set to #[diff_enum::common_fields]"

/-- Panic message of `common_fields` when the annotated item does not
parse as an item at all (src/lib.rs:220-223); `err` is the underlying
`syn` error rendered by `Display`. -/
def msg_no_item (err : String) : String :=
  "#[diff_enum::common_fields] only can be set at enum definition: " ++ err

/-- Panic message of `parse_shared_fields` when the attribute argument
does not parse as a named-field list (src/lib.rs:241-244). -/
def msg_bad_fields (err : String) : String :=
  "Cannot parse fields in attributes at #[diff_enum::common_fields]: " ++ err

/-- Panic message of `expand_shared_fields` and `generate_accessors`
when the item is not an enum (src/lib.rs:251 and :278). -/
def msg_not_enum : String :=
  "#[diff_enum::common_fields] can be set at only enum"

/-- Panic message of `expand_shared_fields` at a tuple-style variant
(src/lib.rs:261-264), naming the offending variant. -/
def msg_unnamed (variantName : String) : String :=
  "#[diff_enum::common_fields] cannot mix named fields with unnamed fields at enum variant "
    ++ variantName

/-- `parse_shared_fields` (src/lib.rs:236-246): wraps the raw attribute
tokens in a synthetic brace group and parses them with `syn`.  The
outcome of that `syn::parse` call is the abstracted input `parsed`; on
parse failure the function panics with `msg_bad_fields`. -/
def parse_shared_fields (parsed : Except String FieldsNamed) : Except String FieldsNamed :=
  match parsed with
  | Except.ok fields => Except.ok fields
  | Except.error err => Except.error (msg_bad_fields err)

/-- The loop body of `expand_shared_fields` (src/lib.rs:254-269) for a
single variant: named payloads get each shared field pushed in order
(so `f.named ++ shared.named`), unit payloads are replaced by a clone
of the shared-field list, tuple payloads panic. -/
def inject_variant (shared : FieldsNamed) (v : Variant) : Except String Variant :=
  match v.fields with
  | Fields.named f =>
      Except.ok { v with fields := Fields.named ⟨f.named ++ shared.named⟩ }
  | Fields.unnamed _ => Except.error (msg_unnamed v.ident)
  | Fields.unit =>
      Except.ok { v with fields := Fields.named shared }

/-- The `for variant in enum_.variants.iter_mut()` loop of
`expand_shared_fields`: variants are rewritten left to right and the
first tuple-style variant aborts the whole macro. -/
def inject_variants (shared : FieldsNamed) : List Variant → Except String (List Variant)
  | [] => Except.ok []
  | v :: rest =>
      match inject_variant shared v with
      | Except.ok v2 =>
          match inject_variants shared rest with
          | Except.ok rest2 => Except.ok (v2 :: rest2)
          | Except.error e => Except.error e
      | Except.error e => Except.error e

/-- `expand_shared_fields` (src/lib.rs:248-273): requires the item to
be an enum, injects the shared fields into every variant, and re-emits
the input with only `data` replaced (`quote!(#input)` prints `attrs`,
`vis`, `ident`, `generics` unchanged). -/
def expand_shared_fields (shared : FieldsNamed) (input : DeriveInput) :
    Except String DeriveInput :=
  match input.data with
  | Data.enumData e =>
      match inject_variants shared e.variants with
      | Except.ok vs => Except.ok { input with data := Data.enumData ⟨vs⟩ }
      | Except.error msg => Except.error msg
  | _ => Except.error msg_not_enum

/-- `generate_accessors` (src/lib.rs:275-306): requires the item to be
an enum and emits, for each shared field in order, one accessor
function whose match arms follow the variant order of the input. -/
def generate_accessors (shared : FieldsNamed) (input : DeriveInput) (enum_name : Ident) :
    Except String ImplBlock :=
  match input.data with
  | Data.enumData e =>
      Except.ok
        { enumName := enum_name
          fns := shared.named.map (fun field =>
            { attrs := ["inline", "allow(dead_code)"]
              vis := "pub"
              name := field.ident
              self_param := "&self"
              ret_ty := "&" ++ field.ty
              arms := e.variants.map (fun variant =>
                { pattern_enum := enum_name
                  pattern_variant := variant.ident
                  pattern_field := field.ident
                  body := field.ident }) }) }
  | _ => Except.error msg_not_enum

/-- The emitted token stream, `quote! \x7b #expanded_enum #impl_accessors \x7d`
(src/lib.rs:228-231): the rewritten enum definition followed by the
accessor impl block. -/
structure MacroOutput where
  expanded_enum : DeriveInput
  impl_accessors : ImplBlock
  deriving DecidableEq, Repr

/-- `common_fields` (src/lib.rs:211-234), the macro entry point.  Its
two `syn::parse` outcomes are abstracted as the inputs `attrParsed`
(for the brace-wrapped attribute argument) and `itemParsed` (for the
annotated item).  Mirrors the source order: shared-field parse, empty
check, item parse, then `generate_accessors` on the *parsed input*
(line 226) and only afterwards `expand_shared_fields` (line 227). -/
def common_fields (attrParsed : Except String FieldsNamed)
    (itemParsed : Except String DeriveInput) : Except String MacroOutput :=
  match parse_shared_fields attrParsed with
  | Except.error e => Except.error e
  | Except.ok shared =>
      if shared.named.isEmpty then Except.error msg_empty
      else
        match itemParsed with
        | Except.error err => Except.error (msg_no_item err)
        | Except.ok input =>
            match generate_accessors shared input input.ident with
            | Except.error e => Except.error e
            | Except.ok impl_accessors =>
                match expand_shared_fields shared input with
                | Except.error e => Except.error e
                | Except.ok expanded_enum =>
                    Except.ok ⟨expanded_enum, impl_accessors⟩

/-- A call to one of the two transformation stages, recording the
`DeriveInput` the stage received. -/
inductive StageCall where
  | generatorCall (input : DeriveInput)
  | injectorCall (input : DeriveInput)
  deriving DecidableEq, Repr

/-- Instrumentation of `common_fields`: the sequence of stage calls it
performs, in source order, each with the `DeriveInput` argument passed
to it.  Per src/lib.rs:226-227, `generate_accessors` is called first,
on the parsed (pre-injection) input; `expand_shared_fields` is called
afterwards — also on the pre-injection input — unless the generator
already panicked. -/
def common_fields_calls (attrParsed : Except String FieldsNamed)
    (itemParsed : Except String DeriveInput) : List StageCall :=
  match parse_shared_fields attrParsed with
  | Except.error _ => []
  | Except.ok shared =>
      if shared.named.isEmpty then []
      else
        match itemParsed with
        | Except.error _ => []
        | Except.ok input =>
            StageCall.generatorCall input ::
              (match generate_accessors shared input input.ident with
               | Except.error _ => []
               | Except.ok _ => [StageCall.injectorCall input])

/-! ## Helper lemmas -/

/-- A string built by appending to `c1` differs from `c2` whenever `c1`
is not a prefix of `c2`. -/
theorem append_left_ne (c1 c2 : String)
    (h : c1.data ≠ c2.data.take c1.data.length) (e : String) : c1 ++ e ≠ c2 := by
  intro heq
  apply h
  have hd : (c1 ++ e).data = c2.data := congrArg String.data heq
  rw [String.data_append] at hd
  rw [← hd, List.take_left]

/-- Two strings built by appending to `c1` and `c2` differ whenever the
constants disagree within their common length. -/
theorem append_ne_append (c1 c2 : String) (k : Nat) (hk1 : k ≤ c1.data.length)
    (hk2 : k ≤ c2.data.length) (h : c1.data.take k ≠ c2.data.take k)
    (a b : String) : c1 ++ a ≠ c2 ++ b := by
  intro heq
  apply h
  have hd : (c1 ++ a).data = (c2 ++ b).data := congrArg String.data heq
  rw [String.data_append, String.data_append] at hd
  have ht := congrArg (List.take k) hd
  rwa [List.take_append_of_le_length hk1, List.take_append_of_le_length hk2] at ht

/-- Whether `pat` occurs as a contiguous run inside the list. -/
def containsRun (pat : List Char) : List Char → Bool
  | [] => pat.isEmpty
  | c :: rest => pat.isPrefixOf (c :: rest) || containsRun pat rest

/-- Whether the string `pat` occurs verbatim inside `s`. -/
def strContains (s pat : String) : Bool :=
  containsRun pat.data s.data

/-- Unfolding lemma for `expand_shared_fields` on an enum input. -/
theorem expand_shared_fields_enum (shared : FieldsNamed) (input : DeriveInput)
    (e : DataEnum) (hdata : input.data = Data.enumData e) :
    expand_shared_fields shared input =
      match inject_variants shared e.variants with
      | Except.ok vs => Except.ok { input with data := Data.enumData ⟨vs⟩ }
      | Except.error msg => Except.error msg := by
  obtain ⟨attrs, vis, ident, generics, data⟩ := input
  simp only at hdata
  subst hdata
  rfl

/-- Unfolding lemma for `generate_accessors` on an enum input. -/
theorem generate_accessors_enum (shared : FieldsNamed) (input : DeriveInput)
    (e : DataEnum) (enum_name : Ident) (hdata : input.data = Data.enumData e) :
    generate_accessors shared input enum_name =
      Except.ok
        { enumName := enum_name
          fns := shared.named.map (fun field =>
            { attrs := ["inline", "allow(dead_code)"]
              vis := "pub"
              name := field.ident
              self_param := "&self"
              ret_ty := "&" ++ field.ty
              arms := e.variants.map (fun variant =>
                { pattern_enum := enum_name
                  pattern_variant := variant.ident
                  pattern_field := field.ident
                  body := field.ident }) }) } := by
  obtain ⟨attrs, vis, ident, generics, data⟩ := input
  simp only at hdata
  subst hdata
  rfl

/-- Successful injection relates input and output variants pointwise by
`inject_variant`. -/
theorem inject_variants_ok {shared : FieldsNamed} :
    ∀ {l l' : List Variant}, inject_variants shared l = Except.ok l' →
      List.Forall₂ (fun v v2 => inject_variant shared v = Except.ok v2) l l' := by
  intro l
  induction l with
  | nil =>
      intro l' h
      cases h
      exact List.Forall₂.nil
  | cons v rest ih =>
      intro l' h
      unfold inject_variants at h
      cases hv : inject_variant shared v with
      | error e => rw [hv] at h; cases h
      | ok v2 =>
          rw [hv] at h
          cases hr : inject_variants shared rest with
          | error e => rw [hr] at h; cases h
          | ok rest2 =>
              rw [hr] at h
              cases h
              exact List.Forall₂.cons hv (ih hr)

/-- `inject_variant` only touches the `fields` component. -/
theorem inject_variant_frame {shared : FieldsNamed} {v v2 : Variant}
    (h : inject_variant shared v = Except.ok v2) :
    v2.ident = v.ident ∧ v2.attrs = v.attrs ∧ v2.discriminant = v.discriminant := by
  cases v with
  | mk attrs ident fields disc =>
      cases fields <;> unfold inject_variant at h <;> simp at h <;> simp [← h]

/-- C1 per-variant content, extracted from `inject_variant`. -/
theorem inject_variant_spec {shared : FieldsNamed} {v v2 : Variant}
    (h : inject_variant shared v = Except.ok v2) :
    (∀ f : FieldsNamed, v.fields = Fields.named f →
      v2 = { v with fields := Fields.named ⟨f.named ++ shared.named⟩ }) ∧
    (v.fields = Fields.unit → v2 = { v with fields := Fields.named shared }) := by
  constructor
  · intro f hf
    unfold inject_variant at h
    rw [hf] at h
    cases h
    rfl
  · intro hf
    unfold inject_variant at h
    rw [hf] at h
    cases h
    rfl

/-! ## Claim theorems -/

/-- C1: for every variant of the annotated enum, `expand_shared_fields`
rewrites the payload as follows: a variant with named fields gets the
shared fields appended after its own fields (original order as prefix,
shared fields in order as suffix, with no duplicate-name detection),
and a variant with no payload is replaced by a named-field payload
holding exactly a copy of the shared fields. -/
theorem injection_rewrites_payloads (shared : FieldsNamed) (input : DeriveInput)
    (e : DataEnum) (out : DeriveInput)
    (hdata : input.data = Data.enumData e)
    (hok : expand_shared_fields shared input = Except.ok out) :
    ∃ vs : List Variant, out.data = Data.enumData ⟨vs⟩ ∧
      List.Forall₂ (fun v v2 =>
        (∀ f : FieldsNamed, v.fields = Fields.named f →
          v2 = { v with fields := Fields.named ⟨f.named ++ shared.named⟩ }) ∧
        (v.fields = Fields.unit → v2 = { v with fields := Fields.named shared }))
        e.variants vs := by
  rw [expand_shared_fields_enum shared input e hdata] at hok
  cases hv : inject_variants shared e.variants with
  | error msg => rw [hv] at hok; cases hok
  | ok vs =>
      rw [hv] at hok
      cases hok
      exact ⟨vs, rfl, (inject_variants_ok hv).imp fun _ _ hinj => inject_variant_spec hinj⟩

/-- Concrete shared-field list `{ x: i32 }` from the crate's tests. -/
def sharedW : FieldsNamed := ⟨[⟨[], "x", "i32"⟩]⟩

/-- Concrete enum `pub enum E { A { b: bool, x: u8 }, B }` — variant
`A` already declares a field named `x`, exercising the absence of
duplicate-name detection. -/
def inputW : DeriveInput :=
  ⟨["#[derive(Debug)]"], "pub", "E", "",
    Data.enumData ⟨[⟨[], "A", Fields.named ⟨[⟨[], "b", "bool"⟩, ⟨[], "x", "u8"⟩]⟩, none⟩,
                    ⟨[], "B", Fields.unit, none⟩]⟩⟩

/-- The enum data of `inputW`. -/
def enumW : DataEnum :=
  ⟨[⟨[], "A", Fields.named ⟨[⟨[], "b", "bool"⟩, ⟨[], "x", "u8"⟩]⟩, none⟩,
    ⟨[], "B", Fields.unit, none⟩]⟩

/-- The rewritten enum: both variants end with the shared `x: i32`
field appended, variant `A` keeping its own `b` and `x` first. -/
def outW : DeriveInput :=
  ⟨["#[derive(Debug)]"], "pub", "E", "",
    Data.enumData ⟨[⟨[], "A",
        Fields.named ⟨[⟨[], "b", "bool"⟩, ⟨[], "x", "u8"⟩, ⟨[], "x", "i32"⟩]⟩, none⟩,
      ⟨[], "B", Fields.named ⟨[⟨[], "x", "i32"⟩]⟩, none⟩]⟩⟩

/-- Witness for C1 at the concrete enum `inputW`. -/
theorem injection_rewrites_payloads_witness :
    ∃ vs : List Variant, outW.data = Data.enumData ⟨vs⟩ ∧
      List.Forall₂ (fun v v2 =>
        (∀ f : FieldsNamed, v.fields = Fields.named f →
          v2 = { v with fields := Fields.named ⟨f.named ++ sharedW.named⟩ }) ∧
        (v.fields = Fields.unit → v2 = { v with fields := Fields.named sharedW }))
        enumW.variants vs :=
  injection_rewrites_payloads sharedW inputW enumW outW rfl rfl

/-- Every successfully injected payload is named fields ending in the
shared fields. -/
theorem inject_variant_suffix {shared : FieldsNamed} {v v2 : Variant}
    (h : inject_variant shared v = Except.ok v2) :
    ∃ own : List Field, v2.fields = Fields.named ⟨own ++ shared.named⟩ := by
  unfold inject_variant at h
  cases hf : v.fields with
  | named f =>
      rw [hf] at h
      cases h
      exact ⟨f.named, rfl⟩
  | unnamed tys => rw [hf] at h; cases h
  | unit =>
      rw [hf] at h
      cases h
      exact ⟨[], by cases shared; rfl⟩

/-- C8: everything in the annotated declaration other than the
variants' payloads is passed through unchanged by
`expand_shared_fields` — name, visibility, outer attributes (hence
derive requests) and generics, as well as each variant's name,
attributes and discriminant — and the injected copy of the shared
fields (each `Field` carrying its attributes and doc comments
verbatim) forms the suffix of every rewritten payload. -/
theorem passthrough_frame (shared : FieldsNamed) (input : DeriveInput)
    (e : DataEnum) (out : DeriveInput)
    (hdata : input.data = Data.enumData e)
    (hok : expand_shared_fields shared input = Except.ok out) :
    out.ident = input.ident ∧ out.vis = input.vis ∧ out.attrs = input.attrs ∧
    out.generics = input.generics ∧
    ∃ vs : List Variant, out.data = Data.enumData ⟨vs⟩ ∧
      List.Forall₂ (fun v v2 =>
        v2.ident = v.ident ∧ v2.attrs = v.attrs ∧ v2.discriminant = v.discriminant ∧
        ∃ own : List Field, v2.fields = Fields.named ⟨own ++ shared.named⟩)
        e.variants vs := by
  rw [expand_shared_fields_enum shared input e hdata] at hok
  cases hv : inject_variants shared e.variants with
  | error msg => rw [hv] at hok; cases hok
  | ok vs =>
      rw [hv] at hok
      cases hok
      refine ⟨rfl, rfl, rfl, rfl, vs, rfl, ?_⟩
      exact (inject_variants_ok hv).imp fun _ _ hinj =>
        ⟨(inject_variant_frame hinj).1, (inject_variant_frame hinj).2.1,
         (inject_variant_frame hinj).2.2, inject_variant_suffix hinj⟩

/-- Witness for C8 at the concrete enum `inputW` (which carries a
`#[derive(Debug)]` attribute and `pub` visibility). -/
theorem passthrough_frame_witness :
    outW.ident = inputW.ident ∧ outW.vis = inputW.vis ∧ outW.attrs = inputW.attrs ∧
    outW.generics = inputW.generics ∧
    ∃ vs : List Variant, outW.data = Data.enumData ⟨vs⟩ ∧
      List.Forall₂ (fun v v2 =>
        v2.ident = v.ident ∧ v2.attrs = v.attrs ∧ v2.discriminant = v.discriminant ∧
        ∃ own : List Field, v2.fields = Fields.named ⟨own ++ sharedW.named⟩)
        enumW.variants vs :=
  passthrough_frame sharedW inputW enumW outW rfl rfl

/-- C7: generated output order is deterministic — `generate_accessors`
emits exactly one accessor per shared field, named after it and in
shared-field order, and within each accessor the match arms follow the
order of the variants in the enum definition. -/
theorem accessor_order (shared : FieldsNamed) (input : DeriveInput) (e : DataEnum)
    (n : Ident) (impl : ImplBlock)
    (hdata : input.data = Data.enumData e)
    (hok : generate_accessors shared input n = Except.ok impl) :
    impl.fns.map AccessorFn.name = shared.named.map Field.ident ∧
    ∀ acc ∈ impl.fns,
      acc.arms.map MatchArm.pattern_variant = e.variants.map Variant.ident := by
  rw [generate_accessors_enum shared input e n hdata] at hok
  cases hok
  constructor
  · rw [List.map_map]
    rfl
  · intro acc hacc
    simp only [List.mem_map] at hacc
    obtain ⟨f, hf, rfl⟩ := hacc
    rw [List.map_map]
    rfl

/-- The accessor impl block `generate_accessors` produces for `sharedW`
and `inputW`: `impl E` with a single accessor `x`. -/
def implW : ImplBlock :=
  ⟨"E", [⟨["inline", "allow(dead_code)"], "pub", "x", "&self", "&i32",
    [⟨"E", "A", "x", "x"⟩, ⟨"E", "B", "x", "x"⟩]⟩]⟩

/-- Witness for C7 at the concrete enum `inputW`. -/
theorem accessor_order_witness :
    implW.fns.map AccessorFn.name = sharedW.named.map Field.ident ∧
    ∀ acc ∈ implW.fns,
      acc.arms.map MatchArm.pattern_variant = enumW.variants.map Variant.ident :=
  accessor_order sharedW inputW enumW "E" implW rfl rfl

/-- C10: every generated accessor is `pub`, carries exactly the
`#[inline]` and `#[allow(dead_code)]` attributes, takes `&self`, is
named after its shared field and returns `&ty` for the field's declared
type `ty` — independently of the enum's own visibility, which
`generate_accessors` never reads. -/
theorem accessor_signature (shared : FieldsNamed) (input : DeriveInput) (e : DataEnum)
    (n : Ident) (impl : ImplBlock)
    (hdata : input.data = Data.enumData e)
    (hok : generate_accessors shared input n = Except.ok impl) :
    List.Forall₂ (fun f acc =>
      acc.vis = "pub" ∧ acc.attrs = ["inline", "allow(dead_code)"] ∧
      acc.self_param = "&self" ∧ acc.name = f.ident ∧ acc.ret_ty = "&" ++ f.ty)
      shared.named impl.fns := by
  rw [generate_accessors_enum shared input e n hdata] at hok
  cases hok
  rw [List.forall₂_map_right_iff, List.forall₂_same]
  intro f hf
  exact ⟨rfl, rfl, rfl, rfl, rfl⟩

/-- Witness for C10 at the concrete enum `inputW`. -/
theorem accessor_signature_witness :
    List.Forall₂ (fun f acc =>
      acc.vis = "pub" ∧ acc.attrs = ["inline", "allow(dead_code)"] ∧
      acc.self_param = "&self" ∧ acc.name = f.ident ∧ acc.ret_ty = "&" ++ f.ty)
      sharedW.named implW.fns :=
  accessor_signature sharedW inputW enumW "E" implW rfl rfl

/-- Unfolding lemma for `expand_shared_fields` on a non-enum input. -/
theorem expand_shared_fields_not_enum (shared : FieldsNamed) (input : DeriveInput)
    (h : ∀ e : DataEnum, input.data ≠ Data.enumData e) :
    expand_shared_fields shared input = Except.error msg_not_enum := by
  obtain ⟨attrs, vis, ident, generics, data⟩ := input
  cases data with
  | enumData e => exact absurd rfl (h e)
  | structData s => rfl
  | unionData s => rfl

/-- Unfolding lemma for `generate_accessors` on a non-enum input. -/
theorem generate_accessors_not_enum (shared : FieldsNamed) (input : DeriveInput)
    (enum_name : Ident) (h : ∀ e : DataEnum, input.data ≠ Data.enumData e) :
    generate_accessors shared input enum_name = Except.error msg_not_enum := by
  obtain ⟨attrs, vis, ident, generics, data⟩ := input
  cases data with
  | enumData e => exact absurd rfl (h e)
  | structData s => rfl
  | unionData s => rfl

/-- The match-arm lists of an accessor depend on the variants only
through their identifiers. -/
theorem arms_eq_of_ident_eq (n fid : Ident) {l1 l2 : List Variant}
    (hid : l1.map Variant.ident = l2.map Variant.ident) :
    l1.map (fun v => MatchArm.mk n v.ident fid fid) =
      l2.map (fun v => MatchArm.mk n v.ident fid fid) := by
  have h1 : l1.map (fun v => MatchArm.mk n v.ident fid fid) =
      (l1.map Variant.ident).map (fun i => MatchArm.mk n i fid fid) := by
    rw [List.map_map]; rfl
  have h2 : l2.map (fun v => MatchArm.mk n v.ident fid fid) =
      (l2.map Variant.ident).map (fun i => MatchArm.mk n i fid fid) := by
    rw [List.map_map]; rfl
  rw [h1, h2, hid]

/-- `generate_accessors` depends on the enum only through the variant
identifiers (and the explicitly passed name). -/
theorem generate_accessors_congr (shared : FieldsNamed) (n : Ident)
    (input1 input2 : DeriveInput) (e1 e2 : DataEnum)
    (h1 : input1.data = Data.enumData e1) (h2 : input2.data = Data.enumData e2)
    (hid : e1.variants.map Variant.ident = e2.variants.map Variant.ident) :
    generate_accessors shared input1 n = generate_accessors shared input2 n := by
  rw [generate_accessors_enum shared input1 e1 n h1,
    generate_accessors_enum shared input2 e2 n h2]
  exact congrArg Except.ok (congrArg (ImplBlock.mk n)
    (List.map_congr_left fun f _ =>
      congrArg (fun arms => AccessorFn.mk ["inline", "allow(dead_code)"] "pub"
        f.ident "&self" ("&" ++ f.ty) arms)
      (arms_eq_of_ident_eq n f.ident hid)))

/-- The pointwise injection relation preserves variant identifiers. -/
theorem forall₂_inject_idents {shared : FieldsNamed} {l l' : List Variant}
    (h : List.Forall₂ (fun v v2 => inject_variant shared v = Except.ok v2) l l') :
    l'.map Variant.ident = l.map Variant.ident := by
  induction h with
  | nil => rfl
  | cons h1 _ ih =>
      rw [List.map_cons, List.map_cons, ih, (inject_variant_frame h1).1]

/-- Injection preserves the variant identifier list. -/
theorem inject_variants_idents {shared : FieldsNamed} {l l' : List Variant}
    (h : inject_variants shared l = Except.ok l') :
    l'.map Variant.ident = l.map Variant.ident :=
  forall₂_inject_idents (inject_variants_ok h)

/-- `generate_accessors` gives the same output on the pre-injection
and the post-injection enum: injection only changes payloads and the
generator only reads variant identifiers. -/
theorem generate_accessors_stable_under_injection (shared : FieldsNamed)
    (input out : DeriveInput) (n : Ident)
    (hok : expand_shared_fields shared input = Except.ok out) :
    generate_accessors shared input n = generate_accessors shared out n := by
  cases hd : input.data with
  | enumData e =>
      rw [expand_shared_fields_enum shared input e hd] at hok
      cases hv : inject_variants shared e.variants with
      | error msg => rw [hv] at hok; cases hok
      | ok vs =>
          rw [hv] at hok
          cases hok
          exact generate_accessors_congr shared n input
            { input with data := Data.enumData ⟨vs⟩ } e ⟨vs⟩ hd rfl
            (inject_variants_idents hv).symm
  | structData s =>
      rw [expand_shared_fields_not_enum shared input
        (fun e heq => by rw [hd] at heq; cases heq)] at hok
      cases hok
  | unionData s =>
      rw [expand_shared_fields_not_enum shared input
        (fun e heq => by rw [hd] at heq; cases heq)] at hok
      cases hok

/-- C9: the accessor generator's output depends only on the shared
field list, the passed enum name and the variants' identifiers — each
arm destructures with a `..` rest pattern (`MatchArm` holds no payload
data) — so `generate_accessors` on the pre-injection enum produces
token-for-token the output it produces on the post-injection enum. -/
theorem generator_payload_blind (shared : FieldsNamed) (input out : DeriveInput)
    (n : Ident) (hok : expand_shared_fields shared input = Except.ok out) :
    generate_accessors shared input n = generate_accessors shared out n :=
  generate_accessors_stable_under_injection shared input out n hok

/-- Witness for C9 at the concrete enum `inputW` and its expansion
`outW`. -/
theorem generator_payload_blind_witness :
    generate_accessors sharedW inputW "E" = generate_accessors sharedW outW "E" :=
  generator_payload_blind sharedW inputW outW "E" rfl

/-! ## Runtime semantics of the generated accessors

The generated accessors are ordinary Rust code; to state claim C2 we
give them the standard semantics of a Rust `match` over a struct-style
enum value.  A constructed value is its variant name plus the field
assignments written in the struct literal; references are abstracted
away (the accessor returns `&T`, modelled as returning the field's
value). -/

/-- Field lookup in a struct-literal assignment.  Rust struct literals
bind every field exactly once, so lookup of a bound field is
unambiguous. -/
def lookupVal {α : Type} : List (Ident × α) → Ident → Option α
  | [], _ => none
  | (n, v) :: rest, f => if n = f then some v else lookupVal rest f

/-- A constructed value of a struct-style enum: the chosen variant and
the field values supplied at construction. -/
structure EnumValue (α : Type) where
  variant : Ident
  vals : List (Ident × α)
  deriving DecidableEq, Repr

/-- Semantics of one generated accessor body
`match self \x7b #(#arms)* \x7d`: the first arm whose variant pattern
matches the value's variant is taken; its pattern binds
`pattern_field` by `ref` to that field of the payload and discards the
rest with `..`, and the arm body is a single identifier resolved in
the pattern's binding environment. -/
def run_accessor {α : Type} (acc : AccessorFn) (inst : EnumValue α) : Option α :=
  match acc.arms.find? (fun arm => arm.pattern_variant == inst.variant) with
  | some arm =>
      if arm.body = arm.pattern_field then lookupVal inst.vals arm.pattern_field
      else none
  | none => none

/-- Arm dispatch: in the arm list generated for a variant list
containing `vid`, the first matching arm is the one for `vid`, and it
binds and returns the field `fid`. -/
theorem find_arm {n fid vid : Ident} {l : List Variant}
    (h : vid ∈ l.map Variant.ident) :
    (l.map (fun v => MatchArm.mk n v.ident fid fid)).find?
        (fun arm => arm.pattern_variant == vid) =
      some (MatchArm.mk n vid fid fid) := by
  induction l with
  | nil => cases h
  | cons v rest ih =>
      rw [List.map_cons] at h ⊢
      by_cases hv : v.ident = vid
      · subst hv
        rw [List.find?_cons_of_pos]
        simp
      · rw [List.find?_cons_of_neg]
        · apply ih
          rcases List.mem_cons.mp h with h1 | h2
          · exact absurd h1.symm hv
          · exact h2
        · simp [hv]

/-- C2: for every constructed value of the transformed enum and every
shared field `f`, the generated accessor named `f` returns exactly the
value assigned to `f` at construction, regardless of which variant was
constructed. -/
theorem accessor_returns_constructed_value {α : Type} (shared : FieldsNamed)
    (input : DeriveInput) (e : DataEnum) (n : Ident) (impl : ImplBlock)
    (hdata : input.data = Data.enumData e)
    (hok : generate_accessors shared input n = Except.ok impl)
    (i : Nat) (f : Field) (acc : AccessorFn)
    (hf : shared.named[i]? = some f)
    (hacc : impl.fns[i]? = some acc)
    (inst : EnumValue α) (val : α)
    (hvar : inst.variant ∈ e.variants.map Variant.ident)
    (hval : lookupVal inst.vals f.ident = some val) :
    run_accessor acc inst = some val := by
  rw [generate_accessors_enum shared input e n hdata] at hok
  cases hok
  rw [List.getElem?_map, hf] at hacc
  cases hacc
  unfold run_accessor
  rw [find_arm hvar]
  simp [hval]

/-- A constructed value `E::A { b: …, x: 42 }` of the transformed enum
(field values at type `Nat`). -/
def instW : EnumValue Nat := ⟨"A", [("b", 0), ("x", 42)]⟩

/-- The single accessor of `implW`. -/
def accW : AccessorFn :=
  ⟨["inline", "allow(dead_code)"], "pub", "x", "&self", "&i32",
    [⟨"E", "A", "x", "x"⟩, ⟨"E", "B", "x", "x"⟩]⟩

/-- Witness for C2: calling the generated accessor `x` on
`E::A { b: 0, x: 42 }` yields `42`. -/
theorem accessor_returns_constructed_value_witness :
    run_accessor accW instW = some 42 :=
  accessor_returns_constructed_value sharedW inputW enumW "E" implW rfl rfl
    0 ⟨[], "x", "i32"⟩ accW rfl rfl instW 42 (by decide) rfl

/-! ## Unfolding lemmas for the orchestrator -/

/-- `common_fields` with an empty shared-field list fails with
`msg_empty` before even looking at the annotated item. -/
theorem common_fields_empty (fs : FieldsNamed) (h : fs.named = [])
    (item : Except String DeriveInput) :
    common_fields (Except.ok fs) item = Except.error msg_empty := by
  obtain ⟨named⟩ := fs
  simp only at h
  subst h
  rfl

/-- Unfolding lemma for `common_fields` past the shared-field checks. -/
theorem common_fields_ok (fs : FieldsNamed) (hne : fs.named ≠ [])
    (item : Except String DeriveInput) :
    common_fields (Except.ok fs) item =
      match item with
      | Except.error err => Except.error (msg_no_item err)
      | Except.ok input =>
          match generate_accessors fs input input.ident with
          | Except.error e => Except.error e
          | Except.ok impl_accessors =>
              match expand_shared_fields fs input with
              | Except.error e => Except.error e
              | Except.ok expanded_enum => Except.ok ⟨expanded_enum, impl_accessors⟩ := by
  obtain ⟨named⟩ := fs
  cases named with
  | nil => exact absurd rfl hne
  | cons a rest => rfl

/-- Unfolding lemma for `common_fields` once the generator has
succeeded. -/
theorem common_fields_unfold_ok (fs : FieldsNamed) (hne : fs.named ≠ [])
    (input : DeriveInput) (impl : ImplBlock)
    (hg : generate_accessors fs input input.ident = Except.ok impl) :
    common_fields (Except.ok fs) (Except.ok input) =
      match expand_shared_fields fs input with
      | Except.ok expanded => Except.ok ⟨expanded, impl⟩
      | Except.error msg => Except.error msg := by
  simp only [common_fields_ok fs hne, hg]
  cases expand_shared_fields fs input <;> rfl

/-- Unfolding lemma for the stage-call trace past the shared-field
checks. -/
theorem common_fields_calls_ok (fs : FieldsNamed) (hne : fs.named ≠ [])
    (input : DeriveInput) :
    common_fields_calls (Except.ok fs) (Except.ok input) =
      StageCall.generatorCall input ::
        (match generate_accessors fs input input.ident with
         | Except.error _ => []
         | Except.ok _ => [StageCall.injectorCall input]) := by
  obtain ⟨named⟩ := fs
  cases named with
  | nil => exact absurd rfl hne
  | cons a rest => rfl

/-! ## Error-shape lemmas -/

/-- A tuple-style variant makes `inject_variant` fail, naming the
variant. -/
theorem inject_variant_unnamed {shared : FieldsNamed} {v : Variant}
    {tys : List TypeExpr} (h : v.fields = Fields.unnamed tys) :
    inject_variant shared v = Except.error (msg_unnamed v.ident) := by
  unfold inject_variant
  rw [h]

/-- A variant that is not tuple-style is injected successfully. -/
theorem inject_variant_ok_of_not_unnamed {shared : FieldsNamed} {v : Variant}
    (h : ∀ t : List TypeExpr, v.fields ≠ Fields.unnamed t) :
    ∃ v2, inject_variant shared v = Except.ok v2 := by
  cases hf : v.fields with
  | named f => exact ⟨_, by unfold inject_variant; rw [hf]⟩
  | unnamed t => exact absurd hf (h t)
  | unit => exact ⟨_, by unfold inject_variant; rw [hf]⟩

/-- The loop fails exactly at the first tuple-style variant, with the
message naming it. -/
theorem inject_variants_error_at_first {shared : FieldsNamed} :
    ∀ (pre : List Variant) (v : Variant) (rest : List Variant) (tys : List TypeExpr),
      v.fields = Fields.unnamed tys →
      (∀ u ∈ pre, ∀ t : List TypeExpr, u.fields ≠ Fields.unnamed t) →
      inject_variants shared (pre ++ v :: rest) = Except.error (msg_unnamed v.ident) := by
  intro pre
  induction pre with
  | nil =>
      intro v rest tys hpos _
      rw [List.nil_append]
      unfold inject_variants
      rw [inject_variant_unnamed hpos]
  | cons u pre' ih =>
      intro v rest tys hpos hpre
      rw [List.cons_append]
      unfold inject_variants
      obtain ⟨u2, hu⟩ := inject_variant_ok_of_not_unnamed
        (hpre u (List.mem_cons_self u pre'))
      rw [hu, ih v rest tys hpos fun u' hu' => hpre u' (List.mem_cons_of_mem u hu')]

/-- Every error `inject_variant` can produce is a `msg_unnamed`. -/
theorem inject_variant_error_shape {shared : FieldsNamed} {v : Variant}
    {msg : String} (h : inject_variant shared v = Except.error msg) :
    ∃ nm, msg = msg_unnamed nm := by
  unfold inject_variant at h
  cases hf : v.fields with
  | named f => rw [hf] at h; cases h
  | unnamed t => rw [hf] at h; cases h; exact ⟨v.ident, rfl⟩
  | unit => rw [hf] at h; cases h

/-- Every error `inject_variants` can produce is a `msg_unnamed`. -/
theorem inject_variants_error_shape {shared : FieldsNamed} :
    ∀ {l : List Variant} {msg : String},
      inject_variants shared l = Except.error msg → ∃ nm, msg = msg_unnamed nm := by
  intro l
  induction l with
  | nil => intro msg h; cases h
  | cons v rest ih =>
      intro msg h
      unfold inject_variants at h
      cases hv : inject_variant shared v with
      | error e =>
          rw [hv] at h
          cases h
          exact inject_variant_error_shape hv
      | ok v2 =>
          rw [hv] at h
          cases hr : inject_variants shared rest with
          | error e => rw [hr] at h; cases h; exact ih hr
          | ok r2 => rw [hr] at h; cases h

/-! ## Message-distinctness lemmas -/

/-- The tuple-variant message never coincides with the not-an-enum
message. -/
theorem msg_unnamed_ne_not_enum (nm : String) : msg_unnamed nm ≠ msg_not_enum := by
  unfold msg_unnamed msg_not_enum
  exact append_left_ne _ _ (by decide) nm

/-- The tuple-variant message never coincides with a not-an-item
message. -/
theorem msg_unnamed_ne_no_item (nm err : String) : msg_unnamed nm ≠ msg_no_item err := by
  unfold msg_unnamed msg_no_item
  exact append_ne_append _ _ 30 (by decide) (by decide) (by decide) nm err

/-- The not-an-item message never coincides with the not-an-enum
message. -/
theorem msg_no_item_ne_not_enum (err : String) : msg_no_item err ≠ msg_not_enum := by
  unfold msg_no_item msg_not_enum
  exact append_left_ne _ _ (by decide) err

/-- The tuple-variant panic message is the fixed prefix
`"#[diff_enum::common_fields] "` followed by the diagnostic text naming
the variant. -/
theorem msg_unnamed_decompose (nm : String) :
    msg_unnamed nm = "#[diff_enum::common_fields] " ++
      ("cannot mix named fields with unnamed fields at enum variant " ++ nm) := by
  unfold msg_unnamed
  rw [← String.append_assoc]
  exact congrArg (fun s => s ++ nm) (by decide)

/-- C4: if any variant of the annotated enum has a tuple-style
(unnamed-field) payload, the transformation fails with a fatal error
whose message contains "cannot mix named fields with unnamed fields at
enum variant <name>", naming the first offending variant, and no
output is produced (`Except.error` carries no tokens). -/
theorem positional_conflict (fs : FieldsNamed) (hne : fs.named ≠ [])
    (input : DeriveInput) (e : DataEnum) (hdata : input.data = Data.enumData e)
    (pre : List Variant) (v : Variant) (rest : List Variant) (tys : List TypeExpr)
    (hsplit : e.variants = pre ++ v :: rest)
    (hpos : v.fields = Fields.unnamed tys)
    (hpre : ∀ u ∈ pre, ∀ t : List TypeExpr, u.fields ≠ Fields.unnamed t) :
    common_fields (Except.ok fs) (Except.ok input) =
      Except.error ("#[diff_enum::common_fields] " ++
        ("cannot mix named fields with unnamed fields at enum variant " ++ v.ident)) := by
  rw [common_fields_unfold_ok fs hne input _
    (generate_accessors_enum fs input e input.ident hdata)]
  rw [expand_shared_fields_enum fs input e hdata]
  rw [hsplit, inject_variants_error_at_first pre v rest tys hpos hpre]
  rw [← msg_unnamed_decompose]

/-- The enum `enum E { A(i32), B }`, whose first variant is
tuple-style. -/
def tupleInputW : DeriveInput :=
  ⟨[], "", "E", "",
    Data.enumData ⟨[⟨[], "A", Fields.unnamed ["i32"], none⟩,
      ⟨[], "B", Fields.unit, none⟩]⟩⟩

/-- Witness for C4 at `enum E { A(i32), B }`. -/
theorem positional_conflict_witness :
    common_fields (Except.ok sharedW) (Except.ok tupleInputW) =
      Except.error ("#[diff_enum::common_fields] " ++
        ("cannot mix named fields with unnamed fields at enum variant " ++ "A")) :=
  positional_conflict sharedW (by decide) tupleInputW
    ⟨[⟨[], "A", Fields.unnamed ["i32"], none⟩, ⟨[], "B", Fields.unit, none⟩]⟩ rfl
    [] ⟨[], "A", Fields.unnamed ["i32"], none⟩ [⟨[], "B", Fields.unit, none⟩] ["i32"]
    rfl rfl (fun u hu => absurd hu (List.not_mem_nil u))

/-- C5 counterexample: with an empty shared-field list the macro does
fail with no output, but the message is
"No shared field is set to #[diff_enum::common_fields]", which is not
the claimed "no shared fields" and does not even contain it. -/
theorem empty_config_message_counterexample :
    common_fields (Except.ok ⟨[]⟩) (Except.ok inputW) = Except.error msg_empty ∧
    msg_empty ≠ "no shared fields" ∧
    strContains msg_empty "no shared fields" = false :=
  ⟨rfl, by decide, by decide⟩

/-- C5 amended: if the macro's configuration argument parses to zero
shared fields, the transformation always fails — whatever the
annotated item is — with the message
"No shared field is set to #[diff_enum::common_fields]", and produces
no output. -/
theorem empty_config_fails (fs : FieldsNamed) (h : fs.named = [])
    (item : Except String DeriveInput) :
    common_fields (Except.ok fs) item = Except.error msg_empty :=
  common_fields_empty fs h item

/-- Witness for the amended C5 with the empty field list and the
concrete enum `inputW`. -/
theorem empty_config_fails_witness :
    common_fields (Except.ok ⟨[]⟩) (Except.ok inputW) = Except.error msg_empty :=
  empty_config_fails ⟨[]⟩ rfl (Except.ok inputW)

/-- The annotated item `struct S { x: i32 }` — parses, but is not an
enum. -/
def structInputW : DeriveInput := ⟨[], "", "S", "", Data.structData "x: i32"⟩

/-- C6 counterexample: annotating a struct fails, but with the message
"#[diff_enum::common_fields] can be set at only enum", which is not
the claimed "can only be set at enum" and does not even contain it. -/
theorem not_enum_message_counterexample :
    common_fields (Except.ok sharedW) (Except.ok structInputW) =
      Except.error msg_not_enum ∧
    msg_not_enum ≠ "can only be set at enum" ∧
    strContains msg_not_enum "can only be set at enum" = false :=
  ⟨rfl, by decide, by decide⟩

/-- Every error of `expand_shared_fields` on an enum input names a
tuple-style variant. -/
theorem expand_shared_fields_error_shape (shared : FieldsNamed) (input : DeriveInput)
    (e : DataEnum) (hdata : input.data = Data.enumData e) {msg : String}
    (h : expand_shared_fields shared input = Except.error msg) :
    ∃ nm, msg = msg_unnamed nm := by
  rw [expand_shared_fields_enum shared input e hdata] at h
  cases hv : inject_variants shared e.variants with
  | ok vs => rw [hv] at h; cases h
  | error m => rw [hv] at h; cases h; exact inject_variants_error_shape hv

/-- C6 amended: given a valid (nonempty) shared-field list, the
transformation fails with the message
"#[diff_enum::common_fields] can be set at only enum" exactly when the
annotated tokens parse as an item whose data is not an enum, and with
the distinct message
"#[diff_enum::common_fields] only can be set at enum definition: <err>"
(carrying the underlying parse error) exactly when the annotated
tokens do not parse as an item at all. -/
theorem target_parse_errors (fs : FieldsNamed) (hne : fs.named ≠ [])
    (item : Except String DeriveInput) :
    (∀ err, item = Except.error err →
      common_fields (Except.ok fs) item = Except.error (msg_no_item err) ∧
      common_fields (Except.ok fs) item ≠ Except.error msg_not_enum) ∧
    (∀ input, item = Except.ok input →
      ((∀ e : DataEnum, input.data ≠ Data.enumData e) →
        common_fields (Except.ok fs) item = Except.error msg_not_enum ∧
        ∀ err2, common_fields (Except.ok fs) item ≠ Except.error (msg_no_item err2)) ∧
      (∀ e : DataEnum, input.data = Data.enumData e →
        common_fields (Except.ok fs) item ≠ Except.error msg_not_enum ∧
        ∀ err2, common_fields (Except.ok fs) item ≠ Except.error (msg_no_item err2))) := by
  constructor
  · intro err heq
    subst heq
    have h1 : common_fields (Except.ok fs) (Except.error err) =
        Except.error (msg_no_item err) := by
      rw [common_fields_ok fs hne]
    refine ⟨h1, ?_⟩
    rw [h1]
    intro hc
    exact msg_no_item_ne_not_enum err (Except.error.inj hc)
  · intro input heq
    subst heq
    constructor
    · intro hnon
      have h1 : common_fields (Except.ok fs) (Except.ok input) =
          Except.error msg_not_enum := by
        simp only [common_fields_ok fs hne,
          generate_accessors_not_enum fs input input.ident hnon]
      refine ⟨h1, ?_⟩
      intro err2
      rw [h1]
      intro hc
      exact msg_no_item_ne_not_enum err2 (Except.error.inj hc).symm
    · intro e hdata
      have h1 := common_fields_unfold_ok fs hne input _
        (generate_accessors_enum fs input e input.ident hdata)
      cases hx : expand_shared_fields fs input with
      | ok expanded =>
          constructor
          · rw [h1, hx]
            intro hc
            cases hc
          · intro err2
            rw [h1, hx]
            intro hc
            cases hc
      | error m =>
          obtain ⟨nm, rfl⟩ := expand_shared_fields_error_shape fs input e hdata hx
          constructor
          · rw [h1, hx]
            intro hc
            have hc2 : Except.error (msg_unnamed nm) =
                (Except.error msg_not_enum : Except String MacroOutput) := hc
            exact msg_unnamed_ne_not_enum nm (Except.error.inj hc2)
          · intro err2
            rw [h1, hx]
            intro hc
            have hc2 : Except.error (msg_unnamed nm) =
                (Except.error (msg_no_item err2) : Except String MacroOutput) := hc
            exact msg_unnamed_ne_no_item nm err2 (Except.error.inj hc2)

/-- Witness for the amended C6: on `struct S { x: i32 }` the macro
fails with the not-an-enum message and never with a not-an-item
message. -/
theorem target_parse_errors_witness :
    common_fields (Except.ok sharedW) (Except.ok structInputW) =
      Except.error msg_not_enum ∧
    ∀ err2, common_fields (Except.ok sharedW) (Except.ok structInputW) ≠
      Except.error (msg_no_item err2) :=
  ((target_parse_errors sharedW (by decide) (Except.ok structInputW)).2
    structInputW rfl).1 (fun e heq => nomatch heq)

/-- C3 counterexample: on `{ x: i32 }` and the enum `inputW`, the
stage-call trace of `common_fields` (src/lib.rs:226-227) invokes the
accessor generator *first*, and the `DeriveInput` it receives is the
pre-injection input, which differs from the post-injection enum `outW`
— refuting both that the injector runs before the generator and that
the generator reads the post-injection `UnionDef`. -/
theorem generator_runs_first_counterexample :
    common_fields_calls (Except.ok sharedW) (Except.ok inputW) =
      [StageCall.generatorCall inputW, StageCall.injectorCall inputW] ∧
    expand_shared_fields sharedW inputW = Except.ok outW ∧
    inputW ≠ outW :=
  ⟨rfl, rfl, by decide⟩

/-- C3 amended: control flow runs the Accessor Generator *before* the
Field Injector, and both stages receive the pre-injection
`DeriveInput`; the generator never mutates it, and since it ignores
payloads its output equals what the post-injection `UnionDef` would
give, so the emitted accessors are as if generated after injection. -/
theorem generator_before_injector (fs : FieldsNamed) (hne : fs.named ≠ [])
    (input : DeriveInput) :
    (∃ rest, common_fields_calls (Except.ok fs) (Except.ok input) =
        StageCall.generatorCall input :: rest ∧
      (rest = [] ∨ rest = [StageCall.injectorCall input])) ∧
    (∀ out, expand_shared_fields fs input = Except.ok out →
      generate_accessors fs input input.ident =
        generate_accessors fs out input.ident) := by
  constructor
  · rw [common_fields_calls_ok fs hne input]
    cases hg : generate_accessors fs input input.ident with
    | error e => exact ⟨[], rfl, Or.inl rfl⟩
    | ok impl => exact ⟨[StageCall.injectorCall input], rfl, Or.inr rfl⟩
  · intro out hok
    exact generate_accessors_stable_under_injection fs input out input.ident hok

/-- Witness for the amended C3 at the concrete inputs. -/
theorem generator_before_injector_witness :
    (∃ rest, common_fields_calls (Except.ok sharedW) (Except.ok inputW) =
        StageCall.generatorCall inputW :: rest ∧
      (rest = [] ∨ rest = [StageCall.injectorCall inputW])) ∧
    (∀ out, expand_shared_fields sharedW inputW = Except.ok out →
      generate_accessors sharedW inputW inputW.ident =
        generate_accessors sharedW out inputW.ident) :=
  generator_before_injector sharedW (by decide) inputW

end DiffEnum
